import Mathlib

/- Verification development for the ESPN+ guide generator (generate_guide.py).

   Embedding conventions:
   - Timestamps are UTC epoch seconds, modeled as `Int`.  Python `datetime`
     arithmetic (`timedelta(minutes=m)`) becomes integer arithmetic on seconds.
   - A SQL NULL (or absent) timestamp column is `Option.none`; the scraper
     stores `start_utc`/`stop_utc` as ISO-8601 UTC text, so SQLite's textual
     `ORDER BY start_utc` coincides with the numeric order modeled here, and
     `parse_iso_datetime` on a stored value is the identity on the epoch value.
   - The XMLTV document is modeled structurally (`Channel`, `Programme`,
     `Guide`) rather than as a byte string: each `programme` element keeps its
     channel attribute, start/stop attributes (as epoch seconds; the source
     formats them with `format_datetime_xmltv`, which is injective), the
     presence of the `<live/>` marker, title, optional sub-title, description
     and category list.  A `kind` tag records which branch of the generator
     emitted the element (standby filler / the event itself / ended filler).
   - Python string `.lower()` on the ASCII data used here is `strLower`;
     string comparison (SQLite memcmp on UTF-8) is `chListLT` on code points,
     which agrees with byte order for valid UTF-8.
   - The fallible parts (a selected row with a missing timestamp would raise
     `KeyError`/`TypeError` in `generate_xmltv`) are modeled with `Option`:
     `none` models an uncaught exception. -/

/- ------------------------------------------------------------------
   String comparison and lowercasing helpers
   ------------------------------------------------------------------ -/

/-- Strict codepoint comparison of characters, as used by SQLite BINARY
collation (memcmp on UTF-8 agrees with codepoint order). -/
def chLT (a b : Char) : Bool := decide (a.toNat < b.toNat)

/-- Lexicographic strict order on char lists (memcmp order). -/
def chListLT : List Char → List Char → Bool
  | [], [] => false
  | [], _ :: _ => true
  | _ :: _, [] => false
  | a :: as, b :: bs => if a = b then chListLT as bs else chLT a b

/-- Strict lexicographic order on strings. -/
def strLT (s t : String) : Bool := chListLT s.data t.data

/-- Embedding of Python `str.lower()` (ASCII data only in this program). -/
def strLower (s : String) : String := String.mk (s.data.map Char.toLower)

/- ------------------------------------------------------------------
   Data model: one row of the `events` table (espn_scraper.py); `id` is the
   TEXT primary key, timestamps are nullable TEXT columns parsed to epoch
   seconds.
   ------------------------------------------------------------------ -/

structure Event where
  id : String
  title : String
  subtitle : String
  sport : String
  league : String
  event_type : String
  start_utc : Option Int
  stop_utc : Option Int
deriving DecidableEq

/- ------------------------------------------------------------------
   Configuration constants (generate_guide.py lines 26-28), in seconds
   ------------------------------------------------------------------ -/

/-- 30-minute standby blocks (STANDBY_BLOCK_DURATION_MIN = 30). -/
def STANDBY_BLOCK_DURATION : Int := 30 * 60

/-- Up to 6 hours of standby before an event (MAX_STANDBY_HOURS = 6). -/
def MAX_STANDBY : Int := 6 * 3600

/-- 30-minute "event ended" block (EVENT_ENDED_DURATION_MIN = 30). -/
def EVENT_ENDED_DURATION : Int := 30 * 60

/-- Selection keeps events for 65 minutes after they end (grace_period_min). -/
def GRACE_PERIOD : Int := 65 * 60

/- ------------------------------------------------------------------
   Time formatting helpers (strftime embeddings)
   ------------------------------------------------------------------ -/

/-- Two-digit zero padding. -/
def pad2 (n : Nat) : String := if n < 10 then "0" ++ toString n else toString n

/-- Embedding of `strftime("%H:%M")` on a UTC epoch timestamp. -/
def formatHM (t : Int) : String :=
  pad2 ((t / 3600) % 24).toNat ++ ":" ++ pad2 ((t % 3600) / 60).toNat

/-- Embedding of `strftime('%I:%M %p UTC').lstrip('0')`: 12-hour clock with
the single leading zero of `%I` stripped. -/
def format12h (t : Int) : String :=
  let h : Nat := ((t / 3600) % 24).toNat
  let m : Nat := ((t % 3600) / 60).toNat
  let h12 : Nat := if h % 12 = 0 then 12 else h % 12
  toString h12 ++ ":" ++ pad2 m ++ " " ++ (if h < 12 then "AM" else "PM") ++ " UTC"

/- ------------------------------------------------------------------
   Standby and ended placeholder blocks
   (generate_standby_blocks, generate_event_ended_block)
   ------------------------------------------------------------------ -/

/-- One synthesized guide block before conversion to a programme element. -/
structure Block where
  start : Int
  stop : Int
  title : String
  desc : String
deriving DecidableEq

/-- The `for _ in range(blocks_needed)` loop of `generate_standby_blocks`
(lines 131-147): each block runs 30 minutes from `current_time`, clipped to
`start_time`; the loop breaks once `current_time >= start_time`. -/
def standby_loop (start_time : Int) : Nat → Int → List Block
  | 0, _ => []
  | n + 1, current_time =>
    let block_stop0 := current_time + STANDBY_BLOCK_DURATION
    let block_stop := if block_stop0 > start_time then start_time else block_stop0
    let b : Block :=
      { start := current_time, stop := block_stop, title := "STAND BY",
        desc := "Event starts at " ++ formatHM start_time ++ " UTC" }
    if block_stop ≥ start_time then [b] else b :: standby_loop start_time n block_stop

/-- Embedding of `generate_standby_blocks(channel_id, start_time, now)`
(lines 104-149).  `time_until` is kept in seconds; Python computes minutes as
floats, and `int(standby_duration / 30)` on minutes equals floor division of
the seconds by 1800. -/
def generate_standby_blocks (channel_id : String) (start_time now : Int) : List Block :=
  let time_until := start_time - now
  if time_until ≤ 0 then []
  else
    let standby_duration := min time_until MAX_STANDBY
    if standby_duration ≤ 0 then []
    else
      standby_loop start_time ((standby_duration / STANDBY_BLOCK_DURATION).toNat) now

/-- Embedding of `generate_event_ended_block(channel_id, end_time)`
(lines 151-161). -/
def generate_event_ended_block (channel_id : String) (end_time : Int) : Block :=
  { start := end_time, stop := end_time + EVENT_ENDED_DURATION,
    title := "EVENT ENDED", desc := "This event has concluded" }

/- ------------------------------------------------------------------
   Event selection (get_live_and_upcoming_events, lines 38-65)
   ------------------------------------------------------------------ -/

/-- The SQL WHERE clause
`datetime(stop_utc,'+65 minutes') > datetime('now') AND
 datetime(start_utc) <= datetime('now','+6 hours')`.
A NULL (or unparseable) timestamp makes its comparison NULL, so the row is
not selected. -/
def selPred (now : Int) (e : Event) : Bool :=
  match e.start_utc, e.stop_utc with
  | some s, some t => decide (t + GRACE_PERIOD > now) && decide (s ≤ now + MAX_STANDBY)
  | _, _ => false

/-- SQLite ordering on the nullable `start_utc` column (NULLs first). -/
def optLT : Option Int → Option Int → Bool
  | none, none => false
  | none, some _ => true
  | some _, none => false
  | some x, some y => decide (x < y)

/-- Generic lexicographic step: compare by the key `f`, break ties with
`rest`.  Mirrors one comma of the SQL `ORDER BY` list. -/
def byKey {κ : Type} [DecidableEq κ] (lt : κ → κ → Bool) (f : Event → κ)
    (rest : Event → Event → Bool) (a b : Event) : Bool :=
  lt (f a) (f b) || (decide (f a = f b) && rest a b)

/-- Tie-break on the primary key `id` (last ORDER BY column). -/
def idLE (a b : Event) : Bool := strLT a.id b.id || decide (a.id = b.id)

/-- The `ORDER BY start_utc, title, id` comparison of the selection query. -/
def eventLE (a b : Event) : Bool :=
  byKey optLT Event.start_utc (byKey strLT Event.title idLE) a b

/-- The ORDER BY relation as a `Prop`-valued relation for `insertionSort`. -/
def eventRel : Event → Event → Prop := fun a b => eventLE a b = true

instance : DecidableRel eventRel := fun a b => instDecidableEqBool (eventLE a b) true

/-- Embedding of `get_live_and_upcoming_events(db_path)`: the WHERE filter
followed by the ORDER BY sort (a stable sort; rows are unique by primary
key, so any sort satisfying the comparison yields the same list). -/
def get_live_and_upcoming_events (db : List Event) (now : Int) : List Event :=
  List.insertionSort eventRel (db.filter (selPred now))

/- ------------------------------------------------------------------
   Playlist emitter (generate_m3u, build_deep_link, lines 81-102)
   ------------------------------------------------------------------ -/

/-- Embedding of `build_deep_link(play_id)`. -/
def build_deep_link (play_id : String) : String :=
  "sportscenter://x-callback-url/showWatchStream?playID=" ++ play_id

/-- The numbered `#EXTINF`/URI line pairs of `generate_m3u`'s loop
(`enumerate(events, 1)`). -/
def m3u_lines : Nat → List Event → List String
  | _, [] => []
  | idx, e :: rest =>
    ("#EXTINF:-1 tvg-id=\"espnplus" ++ toString idx ++ "\" tvg-name=\"" ++ e.title
        ++ "\" tvg-logo=\"\" group-title=\"ESPN+\"," ++ e.title)
      :: build_deep_link e.id
      :: m3u_lines (idx + 1) rest

/-- Embedding of `generate_m3u(events)`. -/
def generate_m3u (events : List Event) : String :=
  String.intercalate "\n" ("#EXTM3U" :: m3u_lines 1 events)

/- ------------------------------------------------------------------
   Guide serializer (generate_xmltv, lines 163-286)
   ------------------------------------------------------------------ -/

/-- Which branch of the generator emitted a programme element. -/
inductive SegKind where
  | standBy
  | liveEvent
  | eventEnded
deriving DecidableEq

/-- A `<channel>` element: id attribute and display-name text. -/
structure Channel where
  id : String
  display_name : String
deriving DecidableEq

/-- A `<programme>` element (attributes and children, structurally). -/
structure Programme where
  channel : String
  kind : SegKind
  start : Int
  stop : Int
  is_live : Bool
  title : String
  sub_title : Option String
  desc : String
  categories : List String
deriving DecidableEq

/-- The whole XMLTV document body. -/
structure Guide where
  channels : List Channel
  programmes : List Programme
deriving DecidableEq

/-- Channel id `f"espnplus{idx}"`. -/
def chanId (idx : Nat) : String := "espnplus" ++ toString idx

/-- Category normalization (lines 265-272): two fixed categories, the sport
when non-empty, and the league when non-empty and its lowercase is not among
`[sport.lower(), 'sports', '']`. -/
def normalized_categories (sport league : String) : List String :=
  ["Sports", "Sports event"]
    ++ (if sport ≠ "" then [sport] else [])
    ++ (if league ≠ "" ∧ strLower league ∉ [strLower sport, "sports", ""] then [league] else [])

/-- The description composition of lines 231-263 (the separator and status
strings appear mojibake-encoded in the source file; reproduced as-is). -/
def build_desc (e : Event) (start_time : Int) (is_live : Bool) : String :=
  let sport_info := (if e.sport ≠ "" then [e.sport] else [])
      ++ (if e.league ≠ "" then [e.league] else [])
  let desc_parts :=
    (if sport_info ≠ [] then [String.intercalate " â€¢ " sport_info] else [])
    ++ (if e.subtitle ≠ "" then ["on " ++ e.subtitle] else [])
    ++ (if is_live then ["ðŸ”´ LIVE NOW"] else ["ðŸ“… " ++ format12h start_time])
    ++ (if e.event_type ≠ ""
          ∧ strLower e.event_type ∉ ["live", "upcoming", "scheduled", ""]
        then ["(" ++ e.event_type ++ ")"] else [])
  if desc_parts ≠ [] then String.intercalate " | " desc_parts else "ESPN+ Event"

/-- Conversion of one standby block to its `<programme>` element
(lines 195-207). -/
def standbyProgramme (cid : String) (b : Block) : Programme :=
  { channel := cid, kind := SegKind.standBy, start := b.start, stop := b.stop,
    is_live := false, title := b.title, sub_title := none, desc := b.desc,
    categories := [] }

/-- The `<programme>` element of the event itself (lines 209-272). -/
def liveProgramme (cid : String) (e : Event) (start_time stop_time now : Int) : Programme :=
  let is_live := decide (start_time ≤ now ∧ now < stop_time)
  { channel := cid, kind := SegKind.liveEvent, start := start_time, stop := stop_time,
    is_live := is_live, title := e.title,
    sub_title :=
      if e.subtitle ≠ "" then some e.subtitle
      else if e.league ≠ "" then some e.league else none,
    desc := build_desc e start_time is_live,
    categories := normalized_categories e.sport e.league }

/-- The post-event `<programme>` element (lines 274-282). -/
def endedProgramme (cid : String) (stop_time : Int) : Programme :=
  let b := generate_event_ended_block cid stop_time
  { channel := cid, kind := SegKind.eventEnded, start := b.start, stop := b.stop,
    is_live := false, title := b.title, sub_title := none, desc := b.desc,
    categories := [] }

/-- All programme elements emitted for one event (one iteration of the
programmes loop, lines 183-282).  A selected row whose timestamp is missing
would raise in `parse_iso_datetime`; that is the `none` case. -/
def eventProgrammes (idx : Nat) (e : Event) (now : Int) : Option (List Programme) :=
  match e.start_utc, e.stop_utc with
  | some start_time, some stop_time =>
    some ((generate_standby_blocks (chanId idx) start_time now).map
            (standbyProgramme (chanId idx))
      ++ [liveProgramme (chanId idx) e start_time stop_time now,
          endedProgramme (chanId idx) stop_time])
  | _, _ => none

/-- The programmes loop over `enumerate(events, 1)`. -/
def compileProgrammes : Nat → List Event → Int → Option (List Programme)
  | _, [], _ => some []
  | idx, e :: rest, now =>
    match eventProgrammes idx e now, compileProgrammes (idx + 1) rest now with
    | some ps, some qs => some (ps ++ qs)
    | _, _ => none

/-- The channels loop over `enumerate(events, 1)` (lines 171-180). -/
def channelsFrom : Nat → List Event → List Channel
  | _, [] => []
  | idx, e :: rest => { id := chanId idx, display_name := e.title } :: channelsFrom (idx + 1) rest

/-- Embedding of `generate_xmltv(events)`; `now` is the single
`datetime.now(timezone.utc)` reading taken at the top of the function. -/
def generate_xmltv (events : List Event) (now : Int) : Option Guide :=
  match compileProgrammes 1 events now with
  | some progs => some { channels := channelsFrom 1 events, programmes := progs }
  | none => none

/- ------------------------------------------------------------------
   The CLI wrapper (main, lines 288-328)
   ------------------------------------------------------------------ -/

/-- Observable outcome of one run: the process exit status and the two
output files (none = not written).  An uncaught exception is exit code 1. -/
structure RunResult where
  exit_code : Nat
  m3u_out : Option String
  xml_out : Option Guide
deriving DecidableEq

/-- Embedding of `main()`: missing store exits 1 before writing; an empty
selection exits 0 before writing; otherwise the playlist is written, then
the guide. -/
def main_run (db_exists : Bool) (db : List Event) (now : Int) : RunResult :=
  if db_exists = false then { exit_code := 1, m3u_out := none, xml_out := none }
  else
    let events := get_live_and_upcoming_events db now
    if events = [] then { exit_code := 0, m3u_out := none, xml_out := none }
    else
      match generate_xmltv events now with
      | some g => { exit_code := 0, m3u_out := some (generate_m3u events), xml_out := some g }
      | none => { exit_code := 1, m3u_out := some (generate_m3u events), xml_out := none }

/- ------------------------------------------------------------------
   Concrete inputs used by counterexamples and witnesses
   ------------------------------------------------------------------ -/

/-- An event row with every descriptive field empty and no timestamps. -/
def baseEvent : Event :=
  { id := "", title := "", subtitle := "", sport := "", league := "",
    event_type := "", start_utc := none, stop_utc := none }

/-- A well-formed upcoming event: starts one hour from epoch 0, lasts an hour. -/
def evGood : Event :=
  { baseEvent with
    id := "g1", title := "Good Game",
    start_utc := some 3600, stop_utc := some 7200 }

/-- A degenerate event with `stop = start` (violates the store invariant). -/
def c2Bad : Event :=
  { baseEvent with
    id := "b2", title := "Degenerate",
    start_utc := some 0, stop_utc := some 0 }

/-- An inverted event with `stop < start`; still inside the selection window
at `now = 0` (`stop + grace = 3000 > 0` and `start = 3600 <= lookahead`). -/
def c5Bad : Event :=
  { baseEvent with
    id := "b5", title := "Inverted",
    start_utc := some 3600, stop_utc := some (-900) }

/-- An event whose league collides case-insensitively with the fixed
category "Sports event". -/
def c3Event : Event :=
  { baseEvent with
    id := "c3", title := "Match", sport := "Soccer",
    league := "Sports event", start_utc := some 0, stop_utc := some 3600 }

/-- An event whose sport and league avoid the fixed categories. -/
def c3GoodEvent : Event :=
  { baseEvent with
    id := "c3w", title := "Match", sport := "Soccer",
    league := "NCAA Hockey", start_utc := some 0, stop_utc := some 3600 }

/-- The guide compiled from the single good event at `now = 0`. -/
def gWitness : Guide :=
  (generate_xmltv [evGood] 0).getD { channels := [], programmes := [] }

/- ------------------------------------------------------------------
   Order-theoretic helper lemmas for the ORDER BY comparison
   ------------------------------------------------------------------ -/

/-- Characters with equal code points are equal. -/
theorem char_toNat_inj {a b : Char} (h : a.toNat = b.toNat) : a = b :=
  Char.ext (UInt32.ext h)

/-- Strings with the same character data are equal. -/
theorem str_data_inj {s t : String} (h : s.data = t.data) : s = t := by
  cases s
  cases t
  exact congrArg String.mk h

/-- Trichotomy for the memcmp order on char lists. -/
theorem chListLT_total : ∀ as bs : List Char,
    chListLT as bs = true ∨ as = bs ∨ chListLT bs as = true := by
  intro as
  induction as with
  | nil => intro bs; cases bs <;> simp [chListLT]
  | cons a as ih =>
    intro bs
    cases bs with
    | nil => simp [chListLT]
    | cons b bs =>
      by_cases hab : a = b
      · subst hab
        rcases ih bs with h | h | h
        · left; simp [chListLT, h]
        · right; left; simp [h]
        · right; right; simp [chListLT, h]
      · rcases Nat.lt_trichotomy a.toNat b.toNat with h | h | h
        · left; simp [chListLT, hab, chLT, h]
        · exact absurd (char_toNat_inj h) hab
        · right; right
          have hba : b ≠ a := fun e => hab e.symm
          simp [chListLT, hba, chLT, h]

/-- Transitivity of the memcmp order on char lists. -/
theorem chListLT_trans : ∀ as bs cs : List Char,
    chListLT as bs = true → chListLT bs cs = true → chListLT as cs = true := by
  intro as
  induction as with
  | nil =>
    intro bs cs h1 h2
    cases bs with
    | nil => simp [chListLT] at h1
    | cons b bs => cases cs with
      | nil => simp [chListLT] at h2
      | cons c cs => simp [chListLT]
  | cons a as ih =>
    intro bs cs h1 h2
    cases bs with
    | nil => simp [chListLT] at h1
    | cons b bs =>
      cases cs with
      | nil => simp [chListLT] at h2
      | cons c cs =>
        by_cases hab : a = b <;> by_cases hbc : b = c
        · subst hab; subst hbc
          simp [chListLT] at h1 h2 ⊢
          exact ih _ _ h1 h2
        · subst hab
          simp [chListLT, hbc] at h2 ⊢
          simp [h2]
        · subst hbc
          simp [chListLT, hab] at h1 ⊢
          simp [h1]
        · simp [chListLT, hab] at h1
          simp [chListLT, hbc] at h2
          have hac : a.toNat < c.toNat := by
            simp [chLT] at h1 h2
            omega
          have hne : a ≠ c := by
            intro e
            subst e
            simp [chLT] at h1 h2
            omega
          simp [chListLT, hne, chLT, hac]

/-- Trichotomy for the string order. -/
theorem strLT_total : ∀ s t : String,
    strLT s t = true ∨ s = t ∨ strLT t s = true := by
  intro s t
  rcases chListLT_total s.data t.data with h | h | h
  · exact Or.inl h
  · exact Or.inr (Or.inl (str_data_inj h))
  · exact Or.inr (Or.inr h)

/-- Transitivity of the string order. -/
theorem strLT_trans : ∀ s t u : String,
    strLT s t = true → strLT t u = true → strLT s u = true :=
  fun _ _ _ h1 h2 => chListLT_trans _ _ _ h1 h2

/-- Trichotomy for the nullable-column order. -/
theorem optLT_total : ∀ x y : Option Int,
    optLT x y = true ∨ x = y ∨ optLT y x = true := by
  intro x y
  cases x <;> cases y <;> simp [optLT] <;> omega

/-- Transitivity of the nullable-column order. -/
theorem optLT_trans : ∀ x y z : Option Int,
    optLT x y = true → optLT y z = true → optLT x z = true := by
  intro x y z
  cases x <;> cases y <;> cases z <;> simp [optLT] <;> omega

/-- A lexicographic step is total when its key order is trichotomous and its
tie-break is total. -/
theorem byKey_total {κ : Type} [DecidableEq κ] (lt : κ → κ → Bool) (f : Event → κ)
    (rest : Event → Event → Bool)
    (hlt : ∀ x y, lt x y = true ∨ x = y ∨ lt y x = true)
    (hrest : ∀ a b, rest a b = true ∨ rest b a = true) :
    ∀ a b, byKey lt f rest a b = true ∨ byKey lt f rest b a = true := by
  intro a b
  simp only [byKey, Bool.or_eq_true, Bool.and_eq_true, decide_eq_true_eq]
  rcases hlt (f a) (f b) with h | h | h
  · exact Or.inl (Or.inl h)
  · rcases hrest a b with hr | hr
    · exact Or.inl (Or.inr ⟨h, hr⟩)
    · exact Or.inr (Or.inr ⟨h.symm, hr⟩)
  · exact Or.inr (Or.inl h)

/-- A lexicographic step is transitive when its key order and tie-break are. -/
theorem byKey_trans {κ : Type} [DecidableEq κ] (lt : κ → κ → Bool) (f : Event → κ)
    (rest : Event → Event → Bool)
    (hlt : ∀ x y z, lt x y = true → lt y z = true → lt x z = true)
    (hrest : ∀ a b c, rest a b = true → rest b c = true → rest a c = true) :
    ∀ a b c, byKey lt f rest a b = true → byKey lt f rest b c = true →
      byKey lt f rest a c = true := by
  intro a b c hab hbc
  simp only [byKey, Bool.or_eq_true, Bool.and_eq_true, decide_eq_true_eq] at hab hbc ⊢
  rcases hab with h1 | ⟨e1, r1⟩ <;> rcases hbc with h2 | ⟨e2, r2⟩
  · exact Or.inl (hlt _ _ _ h1 h2)
  · left; rw [← e2]; exact h1
  · left; rw [e1]; exact h2
  · exact Or.inr ⟨e1.trans e2, hrest _ _ _ r1 r2⟩

/-- Totality of the `id` tie-break. -/
theorem idLE_total : ∀ a b : Event, idLE a b = true ∨ idLE b a = true := by
  intro a b
  simp only [idLE, Bool.or_eq_true, decide_eq_true_eq]
  rcases strLT_total a.id b.id with h | h | h
  · exact Or.inl (Or.inl h)
  · exact Or.inl (Or.inr h)
  · exact Or.inr (Or.inl h)

/-- Transitivity of the `id` tie-break. -/
theorem idLE_trans : ∀ a b c : Event,
    idLE a b = true → idLE b c = true → idLE a c = true := by
  intro a b c h1 h2
  simp only [idLE, Bool.or_eq_true, decide_eq_true_eq] at h1 h2 ⊢
  rcases h1 with h1 | h1 <;> rcases h2 with h2 | h2
  · exact Or.inl (strLT_trans _ _ _ h1 h2)
  · left; rw [← h2]; exact h1
  · left; rw [h1]; exact h2
  · exact Or.inr (h1.trans h2)

/-- The ORDER BY comparison is total. -/
theorem eventRel_total : ∀ a b : Event, eventRel a b ∨ eventRel b a := by
  intro a b
  exact byKey_total optLT Event.start_utc (byKey strLT Event.title idLE)
    optLT_total
    (byKey_total strLT Event.title idLE strLT_total idLE_total)
    a b

/-- The ORDER BY comparison is transitive. -/
theorem eventRel_trans : ∀ a b c : Event, eventRel a b → eventRel b c → eventRel a c := by
  intro a b c
  exact byKey_trans optLT Event.start_utc (byKey strLT Event.title idLE)
    optLT_trans
    (byKey_trans strLT Event.title idLE strLT_trans idLE_trans)
    a b c

/- ------------------------------------------------------------------
   Standby-loop lemmas
   ------------------------------------------------------------------ -/

/-- When the deadline is far enough away, the loop never clips or breaks:
it emits exactly `n` consecutive 30-minute blocks anchored at `cur`. -/
theorem standby_loop_pairs_of_lt (st : Int) : ∀ (n : Nat) (cur : Int),
    cur + 1800 * n < st →
    (standby_loop st n cur).map (fun b => (b.start, b.stop))
      = (List.range n).map
          (fun (k : Nat) => (cur + 1800 * (k : Int), cur + 1800 * ((k : Int) + 1))) := by
  intro n
  induction n with
  | zero => intro cur h; simp [standby_loop]
  | succ n ih =>
    intro cur h
    have hn : (0 : Int) ≤ (n : Int) := Int.natCast_nonneg n
    have hcast : ((n + 1 : Nat) : Int) = (n : Int) + 1 := by push_cast; ring
    rw [hcast] at h
    have h1800 : cur + 1800 < st := by nlinarith
    have hclip : ¬ (cur + STANDBY_BLOCK_DURATION > st) := by
      simp only [STANDBY_BLOCK_DURATION]
      omega
    have hbrk : ¬ (cur + STANDBY_BLOCK_DURATION ≥ st) := by
      simp only [STANDBY_BLOCK_DURATION]
      omega
    simp only [standby_loop, if_neg hclip, if_neg hbrk, List.map_cons]
    have htail : (cur + STANDBY_BLOCK_DURATION) + 1800 * (n : Int) < st := by
      simp only [STANDBY_BLOCK_DURATION]
      nlinarith
    rw [ih (cur + STANDBY_BLOCK_DURATION) htail]
    rw [List.range_succ_eq_map, List.map_cons, List.map_map]
    congr 1
    · simp [STANDBY_BLOCK_DURATION]
    · apply List.map_congr_left
      intro k _
      simp only [Function.comp, STANDBY_BLOCK_DURATION]
      push_cast
      refine Prod.ext ?_ ?_ <;> dsimp only <;> ring_nf

/-- Every block the loop emits starts no earlier than the cursor, is
non-degenerate, and stops no later than the deadline. -/
theorem standby_loop_mem (st : Int) : ∀ (n : Nat) (cur : Int), cur < st →
    ∀ b ∈ standby_loop st n cur,
      cur ≤ b.start ∧ b.start < b.stop ∧ b.stop ≤ st := by
  intro n
  induction n with
  | zero => intro cur _ b hb; simp [standby_loop] at hb
  | succ n ih =>
    intro cur hcur b hb
    simp only [standby_loop] at hb
    by_cases hclip : cur + STANDBY_BLOCK_DURATION > st
    · rw [if_pos hclip, if_pos (le_refl st)] at hb
      simp only [List.mem_singleton] at hb
      subst hb
      exact ⟨le_refl _, hcur, le_refl _⟩
    · rw [if_neg hclip] at hb
      have hstop : cur + STANDBY_BLOCK_DURATION ≤ st := by omega
      by_cases hbrk : cur + STANDBY_BLOCK_DURATION ≥ st
      · rw [if_pos hbrk] at hb
        simp only [List.mem_singleton] at hb
        subst hb
        refine ⟨le_refl _, ?_, hstop⟩
        simp only [STANDBY_BLOCK_DURATION]
        omega
      · rw [if_neg hbrk] at hb
        rcases List.mem_cons.mp hb with hb | hb
        · subst hb
          refine ⟨le_refl _, ?_, hstop⟩
          simp only [STANDBY_BLOCK_DURATION]
          omega
        · have hlt : cur + STANDBY_BLOCK_DURATION < st := by omega
          have := ih (cur + STANDBY_BLOCK_DURATION) hlt b hb
          refine ⟨le_trans ?_ this.1, this.2⟩
          simp only [STANDBY_BLOCK_DURATION]
          omega

/-- Blocks emitted by the loop are contiguous-or-later: each stops no later
than any later block starts. -/
theorem standby_loop_pairwise (st : Int) : ∀ (n : Nat) (cur : Int), cur < st →
    (standby_loop st n cur).Pairwise (fun a b => a.stop ≤ b.start) := by
  intro n
  induction n with
  | zero => intro cur _; simp [standby_loop]
  | succ n ih =>
    intro cur hcur
    simp only [standby_loop]
    by_cases hclip : cur + STANDBY_BLOCK_DURATION > st
    · rw [if_pos hclip, if_pos (le_refl st)]
      simp
    · rw [if_neg hclip]
      by_cases hbrk : cur + STANDBY_BLOCK_DURATION ≥ st
      · rw [if_pos hbrk]
        simp
      · rw [if_neg hbrk]
        have hlt : cur + STANDBY_BLOCK_DURATION < st := by omega
        refine List.Pairwise.cons ?_ (ih (cur + STANDBY_BLOCK_DURATION) hlt)
        intro b hb
        exact (standby_loop_mem st n (cur + STANDBY_BLOCK_DURATION) hlt b hb).1

/-- Wrapper of `standby_loop_mem` for `generate_standby_blocks`. -/
theorem generate_standby_blocks_mem (cid : String) (st now : Int) :
    ∀ b ∈ generate_standby_blocks cid st now,
      now ≤ b.start ∧ b.start < b.stop ∧ b.stop ≤ st := by
  intro b hb
  simp only [generate_standby_blocks] at hb
  by_cases h0 : st - now ≤ 0
  · rw [if_pos h0] at hb
    simp at hb
  · rw [if_neg h0] at hb
    have hmin : ¬ (min (st - now) MAX_STANDBY ≤ 0) := by
      simp only [MAX_STANDBY]
      omega
    rw [if_neg hmin] at hb
    exact standby_loop_mem st _ now (by omega) b hb

/-- Wrapper of `standby_loop_pairwise` for `generate_standby_blocks`. -/
theorem generate_standby_blocks_pairwise (cid : String) (st now : Int) :
    (generate_standby_blocks cid st now).Pairwise (fun a b => a.stop ≤ b.start) := by
  simp only [generate_standby_blocks]
  by_cases h0 : st - now ≤ 0
  · rw [if_pos h0]
    simp
  · rw [if_neg h0]
    have hmin : ¬ (min (st - now) MAX_STANDBY ≤ 0) := by
      simp only [MAX_STANDBY]
      omega
    rw [if_neg hmin]
    exact standby_loop_pairwise st _ now (by omega)

/- ------------------------------------------------------------------
   Selection and compilation helper lemmas
   ------------------------------------------------------------------ -/

/-- Membership in the selection result is membership in the table plus the
WHERE predicate. -/
theorem get_live_mem (db : List Event) (now : Int) (e : Event) :
    e ∈ get_live_and_upcoming_events db now ↔ e ∈ db ∧ selPred now e = true := by
  unfold get_live_and_upcoming_events
  rw [(List.perm_insertionSort eventRel (db.filter (selPred now))).mem_iff]
  exact List.mem_filter

/-- Every selected event carries both timestamps. -/
theorem selected_timestamps (db : List Event) (now : Int) :
    ∀ e ∈ get_live_and_upcoming_events db now,
      e.start_utc.isSome ∧ e.stop_utc.isSome := by
  intro e he
  have hp := ((get_live_mem db now e).mp he).2
  cases hs : e.start_utc with
  | none => simp [selPred, hs] at hp
  | some s =>
    cases ht : e.stop_utc with
    | none => simp [selPred, hs, ht] at hp
    | some t => simp [hs, ht]

/-- The programmes loop succeeds on any list whose events carry both
timestamps. -/
theorem compileProgrammes_isSome : ∀ (idx : Nat) (evs : List Event) (now : Int),
    (∀ e ∈ evs, e.start_utc.isSome ∧ e.stop_utc.isSome) →
    (compileProgrammes idx evs now).isSome := by
  intro idx evs
  induction evs generalizing idx with
  | nil => intro now _; simp [compileProgrammes]
  | cons e rest ih =>
    intro now h
    have he := h e (List.mem_cons_self e rest)
    have hrest := ih (idx + 1) now (fun x hx => h x (List.mem_cons_of_mem e hx))
    cases hs : e.start_utc with
    | none => rw [hs] at he; simp at he
    | some s =>
      cases ht : e.stop_utc with
      | none => rw [ht] at he; simp at he
      | some t =>
        simp only [compileProgrammes, eventProgrammes, hs, ht]
        cases hc : compileProgrammes (idx + 1) rest now with
        | none => rw [hc] at hrest; simp at hrest
        | some qs => simp

/-- The channels loop emits one channel per event. -/
theorem channelsFrom_length : ∀ (idx : Nat) (evs : List Event),
    (channelsFrom idx evs).length = evs.length := by
  intro idx evs
  induction evs generalizing idx with
  | nil => simp [channelsFrom]
  | cons e rest ih => simp [channelsFrom, ih]

/-- The channel ids are `espnplus{idx}`, `espnplus{idx+1}`, ... in order. -/
theorem channelsFrom_ids : ∀ (idx : Nat) (evs : List Event),
    (channelsFrom idx evs).map Channel.id
      = (List.range evs.length).map (fun k => chanId (idx + k)) := by
  intro idx evs
  induction evs generalizing idx with
  | nil => simp [channelsFrom]
  | cons e rest ih =>
    simp only [channelsFrom, List.map_cons, List.length_cons,
      List.range_succ_eq_map, List.map_map]
    congr 1
    rw [ih (idx + 1)]
    apply List.map_congr_left
    intro k _
    simp only [Function.comp]
    congr 1
    omega

/-- Every programme element of one event carries that event's channel id. -/
theorem eventProgrammes_channel (idx : Nat) (e : Event) (now : Int)
    (ps : List Programme) (h : eventProgrammes idx e now = some ps) :
    ∀ p ∈ ps, p.channel = chanId idx := by
  intro p hp
  cases hs : e.start_utc with
  | none => simp [eventProgrammes, hs] at h
  | some s =>
    cases ht : e.stop_utc with
    | none => simp [eventProgrammes, hs, ht] at h
    | some t =>
      simp only [eventProgrammes, hs, ht, Option.some_inj] at h
      subst h
      rcases List.mem_append.mp hp with hp | hp
      · rcases List.mem_map.mp hp with ⟨b, _, hb⟩
        rw [← hb]
        rfl
      · rcases List.mem_cons.mp hp with hp | hp
        · subst hp; rfl
        · rcases List.mem_cons.mp hp with hp | hp
          · subst hp; rfl
          · simp at hp

/-- Every programme the loop emits references the channel of one of the
events numbered from `idx`. -/
theorem compileProgrammes_channels : ∀ (idx : Nat) (evs : List Event) (now : Int)
    (ps : List Programme), compileProgrammes idx evs now = some ps →
    ∀ p ∈ ps, ∃ k, k < evs.length ∧ p.channel = chanId (idx + k) := by
  intro idx evs
  induction evs generalizing idx with
  | nil =>
    intro now ps h p hp
    simp only [compileProgrammes, Option.some_inj] at h
    subst h
    simp at hp
  | cons e rest ih =>
    intro now ps h p hp
    simp only [compileProgrammes] at h
    cases he : eventProgrammes idx e now with
    | none => rw [he] at h; simp at h
    | some ps1 =>
      cases hc : compileProgrammes (idx + 1) rest now with
      | none => rw [he, hc] at h; simp at h
      | some ps2 =>
        rw [he, hc, Option.some_inj] at h
        subst h
        rcases List.mem_append.mp hp with hp | hp
        · refine ⟨0, by simp, ?_⟩
          rw [Nat.add_zero]
          exact eventProgrammes_channel idx e now ps1 he p hp
        · rcases ih (idx + 1) now ps2 hc p hp with ⟨k, hk, hck⟩
          refine ⟨k + 1, by simpa using Nat.succ_lt_succ hk, ?_⟩
          rw [hck]
          congr 1
          omega

/- ------------------------------------------------------------------
   Claim theorems
   ------------------------------------------------------------------ -/

/-- C1: evaluation at the claim's own scenario (`now = T-45min`, i.e.
`start_time = 2700`, `now = 0` in seconds).  The code emits a single
30-minute block `[0, 1800)` and stops: `int()` floors the block count, so
the final truncated block that would end at `start` is never created and
the interval `[1800, 2700)` is left uncovered, contradicting the claimed
exact tiling of `[now, start)` with two blocks. -/
theorem standby_blocks_gap_at_45min :
    (generate_standby_blocks (chanId 1) 2700 0).map (fun b => (b.start, b.stop))
      = [((0 : Int), (1800 : Int))] := by
  decide

/-- C4 counterexample: for an event 7 hours away (`start - now = 25200 >
MAX_STANDBY`), the routine does not return the empty sequence — it emits
twelve 30-minute blocks anchored at `now`. -/
theorem standby_blocks_nonempty_beyond_max :
    (25200 : Int) - 0 > MAX_STANDBY
    ∧ generate_standby_blocks (chanId 1) 25200 0 ≠ []
    ∧ (generate_standby_blocks (chanId 1) 25200 0).length = 12 := by
  refine ⟨by decide, by decide, by decide⟩

/-- C2 counterexample: the degenerate event with `stop = start` is selected
at `now = 0` and compiled without error into one channel and two programme
segments, contradicting the claimed exclusion. -/
theorem degenerate_event_compiled_not_excluded :
    get_live_and_upcoming_events [c2Bad] 0 = [c2Bad]
    ∧ (generate_xmltv [c2Bad] 0).map (fun g => g.channels.length) = some 1
    ∧ (generate_xmltv [c2Bad] 0).map (fun g => g.programmes.length) = some 2 := by
  refine ⟨by decide, by decide, by decide⟩

/-- C5 counterexample: the inverted event (`start = 3600`, `stop = -900`)
passes the selection window at `now = 0`, and its channel's segment list has
overlapping segments and decreasing start times (the `EVENT ENDED` block
`[-900, 900)` overlaps the standby block `[0, 1800)`). -/
theorem segments_overlap_for_degenerate_event :
    get_live_and_upcoming_events [c5Bad] 0 = [c5Bad]
    ∧ ¬ (((eventProgrammes 1 c5Bad 0).getD []).Pairwise
          (fun a b => a.stop ≤ b.start ∨ b.stop ≤ a.start))
    ∧ ¬ (((eventProgrammes 1 c5Bad 0).getD []).Pairwise
          (fun a b => a.start ≤ b.start)) := by
  refine ⟨by decide, by decide, by decide⟩

/-- C3 counterexample: with `sport = "Soccer"` and `league = "Sports event"`,
the league passes the code's check (which compares only against the sport
and `'sports'`, not `'Sports event'`), so the emitted category list of the
event's own programme contains two case-insensitively equal entries. -/
theorem league_category_duplicates_sports_event :
    normalized_categories "Soccer" "Sports event"
      = ["Sports", "Sports event", "Soccer", "Sports event"]
    ∧ ¬ (["Sports", "Sports event", "Soccer", "Sports event"].Pairwise
          (fun a b : String => strLower a ≠ strLower b))
    ∧ ((eventProgrammes 1 c3Event 0).getD []).map Programme.categories
      = [["Sports", "Sports event", "Soccer", "Sports event"], []] := by
  refine ⟨by decide, by decide, by decide⟩

/-- C4 as amended: for every event with `start - now > max_standby` (6 h),
the routine emits exactly twelve fixed 30-minute blocks tiling
`[now, now + 6h)` anchored at `now` — not the empty sequence — and leaves
the gap `[now + 6h, start)` unfilled. -/
theorem standby_blocks_far_future_tile_from_now (cid : String) (st now : Int)
    (h : st - now > MAX_STANDBY) :
    (generate_standby_blocks cid st now).map (fun b => (b.start, b.stop))
      = (List.range 12).map
          (fun (k : Nat) => (now + 1800 * (k : Int), now + 1800 * ((k : Int) + 1))) := by
  have h' : st - now > 21600 := by simpa [MAX_STANDBY] using h
  have h0 : ¬ (st - now ≤ 0) := by omega
  have hmin : min (st - now) MAX_STANDBY = MAX_STANDBY :=
    min_eq_right (by simp only [MAX_STANDBY]; omega)
  have hpos : ¬ (MAX_STANDBY ≤ 0) := by simp [MAX_STANDBY]
  have hdiv : ((MAX_STANDBY / STANDBY_BLOCK_DURATION).toNat) = 12 := by decide
  simp only [generate_standby_blocks, if_neg h0, hmin, if_neg hpos, hdiv]
  refine standby_loop_pairs_of_lt st 12 now ?_
  push_cast
  omega

/-- Witness for the amended C4 at `st = 25200`, `now = 0`. -/
theorem standby_blocks_far_future_witness :
    (25200 : Int) - 0 > MAX_STANDBY
    ∧ (generate_standby_blocks (chanId 1) 25200 0).map (fun b => (b.start, b.stop))
        = (List.range 12).map
            (fun (k : Nat) => ((0 : Int) + 1800 * (k : Int), (0 : Int) + 1800 * ((k : Int) + 1))) :=
  ⟨by decide, standby_blocks_far_future_tile_from_now (chanId 1) 25200 0 (by decide)⟩

/-- C5 as amended: for every compiled event with `start <= stop`, the
segment list of its channel (standby blocks, then the event, then the ended
block) consists of non-degenerate-or-empty intervals whose stops never
exceed the next segment's start: starts are non-decreasing and no two
segments overlap.  (The unamended claim fails for `stop < start`.) -/
theorem segments_sorted_nonoverlapping_of_start_le_stop
    (idx : Nat) (e : Event) (now s t : Int)
    (hs : e.start_utc = some s) (ht : e.stop_utc = some t) (hst : s ≤ t) :
    (∀ p ∈ (eventProgrammes idx e now).getD [], p.start ≤ p.stop)
    ∧ ((eventProgrammes idx e now).getD []).Pairwise (fun a b => a.stop ≤ b.start) := by
  simp only [eventProgrammes, hs, ht, Option.getD_some]
  constructor
  · intro p hp
    rcases List.mem_append.mp hp with hp | hp
    · rcases List.mem_map.mp hp with ⟨b, hb, rfl⟩
      have hm := generate_standby_blocks_mem (chanId idx) s now b hb
      simpa [standbyProgramme] using le_of_lt hm.2.1
    · rcases List.mem_cons.mp hp with rfl | hp
      · simpa [liveProgramme] using hst
      · rcases List.mem_cons.mp hp with rfl | hp
        · simp only [endedProgramme, generate_event_ended_block, EVENT_ENDED_DURATION]
          omega
        · simp at hp
  · rw [List.pairwise_append]
    refine ⟨?_, ?_, ?_⟩
    · rw [List.pairwise_map]
      exact generate_standby_blocks_pairwise (chanId idx) s now
    · refine List.Pairwise.cons ?_ (List.pairwise_singleton _ _)
      intro p hp
      rcases List.mem_singleton.mp hp with rfl
      simp [liveProgramme, endedProgramme, generate_event_ended_block]
    · intro a ha b hb
      rcases List.mem_map.mp ha with ⟨blk, hblk, rfl⟩
      have hm := generate_standby_blocks_mem (chanId idx) s now blk hblk
      rcases List.mem_cons.mp hb with rfl | hb
      · simpa [standbyProgramme, liveProgramme] using hm.2.2
      · rcases List.mem_cons.mp hb with rfl | hb
        · simpa [standbyProgramme, endedProgramme, generate_event_ended_block] using
            le_trans hm.2.2 hst
        · simp at hb

/-- Witness for the amended C5 at the good upcoming event, `now = 0`. -/
theorem segments_sorted_nonoverlapping_witness :
    evGood.start_utc = some 3600 ∧ evGood.stop_utc = some 7200 ∧ (3600 : Int) ≤ 7200
    ∧ ((∀ p ∈ (eventProgrammes 1 evGood 0).getD [], p.start ≤ p.stop)
        ∧ ((eventProgrammes 1 evGood 0).getD []).Pairwise (fun a b => a.stop ≤ b.start)) :=
  ⟨rfl, rfl, by norm_num,
    segments_sorted_nonoverlapping_of_start_le_stop 1 evGood 0 3600 7200 rfl rfl (by norm_num)⟩

/-- C6: for every compiled event, whatever its classification at `now`, the
emitted segment list contains exactly one `EVENT ENDED` element, and that
element spans exactly `[stop, stop + 30 min)`. -/
theorem exactly_one_event_ended_segment (idx : Nat) (e : Event) (now s t : Int)
    (hs : e.start_utc = some s) (ht : e.stop_utc = some t) :
    ((eventProgrammes idx e now).getD []).filter
        (fun p => decide (p.kind = SegKind.eventEnded))
      = [endedProgramme (chanId idx) t]
    ∧ (endedProgramme (chanId idx) t).start = t
    ∧ (endedProgramme (chanId idx) t).stop = t + EVENT_ENDED_DURATION := by
  refine ⟨?_, rfl, rfl⟩
  simp only [eventProgrammes, hs, ht, Option.getD_some, List.filter_append]
  have h1 : ((generate_standby_blocks (chanId idx) s now).map
      (standbyProgramme (chanId idx))).filter
        (fun p => decide (p.kind = SegKind.eventEnded)) = [] := by
    rw [List.filter_map]
    have hcomp : ((fun p => decide (p.kind = SegKind.eventEnded)) ∘
        standbyProgramme (chanId idx)) = fun _ => false := by
      funext b
      simp [Function.comp, standbyProgramme]
    rw [hcomp]
    simp
  rw [h1]
  simp [List.filter, liveProgramme, endedProgramme]

/-- Witness for C6 at the good upcoming event, `now = 0`. -/
theorem exactly_one_event_ended_witness :
    evGood.start_utc = some 3600 ∧ evGood.stop_utc = some 7200
    ∧ (((eventProgrammes 1 evGood 0).getD []).filter
          (fun p => decide (p.kind = SegKind.eventEnded))
        = [endedProgramme (chanId 1) 7200]
      ∧ (endedProgramme (chanId 1) 7200).start = 7200
      ∧ (endedProgramme (chanId 1) 7200).stop = 7200 + EVENT_ENDED_DURATION) :=
  ⟨rfl, rfl, exactly_one_event_ended_segment 1 evGood 0 3600 7200 rfl rfl⟩

/-- Helper: the normalized category list has pairwise case-insensitively
distinct entries whenever the sport avoids both fixed categories and the
league is not `'sports event'` case-insensitively (the code itself enforces
the remaining distinctions for the league slot). -/
theorem normalized_categories_pairwise (sp lg : String)
    (h1 : strLower sp ≠ "sports") (h2 : strLower sp ≠ "sports event")
    (h3 : strLower lg ≠ "sports event") :
    (normalized_categories sp lg).Pairwise (fun a b => strLower a ≠ strLower b) := by
  have fA : strLower "Sports" = "sports" := by decide
  have fB : strLower "Sports event" = "sports event" := by decide
  have fAB : ("sports" : String) ≠ "sports event" := by decide
  unfold normalized_categories
  by_cases hsp : sp ≠ ""
  · by_cases hl : lg ≠ "" ∧ strLower lg ∉ [strLower sp, "sports", ""]
    · have hl2 := hl.2
      simp only [List.mem_cons, List.mem_singleton, not_or] at hl2
      rw [if_pos hsp, if_pos hl]
      simp only [List.cons_append, List.nil_append, List.pairwise_cons,
        List.mem_cons, List.mem_singleton, List.not_mem_nil]
      refine ⟨?_, ?_, ?_, ?_⟩
      · intro b hb
        rcases hb with rfl | rfl | rfl | hb
        · rw [fA, fB]; exact fAB
        · rw [fA]; exact fun h => h1 h.symm
        · rw [fA]; exact fun h => hl2.2.1 h.symm
        · simp at hb
      · intro b hb
        rcases hb with rfl | rfl | hb
        · rw [fB]; exact fun h => h2 h.symm
        · rw [fB]; exact fun h => h3 h.symm
        · simp at hb
      · intro b hb
        rcases hb with rfl | hb
        · exact fun h => hl2.1 h.symm
        · simp at hb
      · simp
    · rw [if_pos hsp, if_neg hl]
      simp only [List.cons_append, List.nil_append, List.append_nil,
        List.pairwise_cons, List.mem_cons, List.mem_singleton, List.not_mem_nil]
      refine ⟨?_, ?_, ?_⟩
      · intro b hb
        rcases hb with rfl | rfl | hb
        · rw [fA, fB]; exact fAB
        · rw [fA]; exact fun h => h1 h.symm
        · simp at hb
      · intro b hb
        rcases hb with rfl | hb
        · rw [fB]; exact fun h => h2 h.symm
        · simp at hb
      · simp
  · by_cases hl : lg ≠ "" ∧ strLower lg ∉ [strLower sp, "sports", ""]
    · have hl2 := hl.2
      simp only [List.mem_cons, List.mem_singleton, not_or] at hl2
      rw [if_neg hsp, if_pos hl]
      simp only [List.cons_append, List.nil_append, List.pairwise_cons,
        List.mem_cons, List.mem_singleton, List.not_mem_nil]
      refine ⟨?_, ?_, ?_⟩
      · intro b hb
        rcases hb with rfl | rfl | hb
        · rw [fA, fB]; exact fAB
        · rw [fA]; exact fun h => hl2.2.1 h.symm
        · simp at hb
      · intro b hb
        rcases hb with rfl | hb
        · rw [fB]; exact fun h => h3 h.symm
        · simp at hb
      · simp
    · rw [if_neg hsp, if_neg hl]
      simp only [List.cons_append, List.nil_append, List.append_nil,
        List.pairwise_cons, List.mem_singleton, List.not_mem_nil]
      refine ⟨?_, ?_⟩
      · intro b hb
        rcases hb with rfl
        rw [fA, fB]; exact fAB
      · simp

/-- C3 as amended: the live programme's category list always contains the
two fixed categories and the sport when non-empty; the league is gated only
against the sport and `'sports'` (not `'Sports event'`), so case-insensitive
distinctness holds under the additional hypotheses that the sport differs
from both fixed categories and the league differs from `'Sports event'`. -/
theorem categories_ci_distinct_when_fields_avoid_fixed
    (idx : Nat) (e : Event) (now s t : Int)
    (hs : e.start_utc = some s) (ht : e.stop_utc = some t)
    (h1 : strLower e.sport ≠ "sports") (h2 : strLower e.sport ≠ "sports event")
    (h3 : strLower e.league ≠ "sports event") :
    ∀ p ∈ (eventProgrammes idx e now).getD [], p.kind = SegKind.liveEvent →
      p.categories = normalized_categories e.sport e.league
      ∧ "Sports" ∈ p.categories ∧ "Sports event" ∈ p.categories
      ∧ (e.sport ≠ "" → e.sport ∈ p.categories)
      ∧ p.categories.Pairwise (fun a b => strLower a ≠ strLower b) := by
  simp only [eventProgrammes, hs, ht, Option.getD_some]
  intro p hp hk
  rcases List.mem_append.mp hp with hp | hp
  · rcases List.mem_map.mp hp with ⟨b, _, rfl⟩
    simp [standbyProgramme] at hk
  · rcases List.mem_cons.mp hp with rfl | hp
    · refine ⟨rfl, ?_, ?_, ?_, ?_⟩
      · simp [liveProgramme, normalized_categories]
      · simp [liveProgramme, normalized_categories]
      · intro hsp
        simp [liveProgramme, normalized_categories, hsp]
      · exact normalized_categories_pairwise e.sport e.league h1 h2 h3
    · rcases List.mem_cons.mp hp with rfl | hp
      · simp [endedProgramme, generate_event_ended_block] at hk
      · simp at hp

/-- Witness for the amended C3 at an event whose sport and league avoid the
fixed categories. -/
theorem categories_ci_distinct_witness :
    c3GoodEvent.start_utc = some 0 ∧ c3GoodEvent.stop_utc = some 3600
    ∧ strLower c3GoodEvent.sport ≠ "sports"
    ∧ strLower c3GoodEvent.sport ≠ "sports event"
    ∧ strLower c3GoodEvent.league ≠ "sports event"
    ∧ (∀ p ∈ (eventProgrammes 1 c3GoodEvent 0).getD [],
        p.kind = SegKind.liveEvent →
        p.categories = normalized_categories c3GoodEvent.sport c3GoodEvent.league
        ∧ "Sports" ∈ p.categories ∧ "Sports event" ∈ p.categories
        ∧ (c3GoodEvent.sport ≠ "" → c3GoodEvent.sport ∈ p.categories)
        ∧ p.categories.Pairwise (fun a b => strLower a ≠ strLower b)) :=
  ⟨rfl, rfl, by decide, by decide, by decide,
    categories_ci_distinct_when_fields_avoid_fixed 1 c3GoodEvent 0 0 3600 rfl rfl
      (by decide) (by decide) (by decide)⟩

/-- C2 as amended: an event with a missing (NULL) `start` or `stop` is
excluded by the selection query itself and never reaches compilation, and
the compiler never raises on what it selects; but an event with
`stop <= start` inside the window is NOT excluded — compilation succeeds
and produces one channel per selected event, degenerate ones included. -/
theorem missing_timestamps_excluded_and_selected_events_compile
    (db : List Event) (now : Int) :
    (∀ e ∈ get_live_and_upcoming_events db now,
        e.start_utc.isSome ∧ e.stop_utc.isSome)
    ∧ (generate_xmltv (get_live_and_upcoming_events db now) now).map
          (fun g => g.channels.length)
        = some (get_live_and_upcoming_events db now).length := by
  refine ⟨selected_timestamps db now, ?_⟩
  have h := compileProgrammes_isSome 1 (get_live_and_upcoming_events db now) now
    (selected_timestamps db now)
  cases hc : compileProgrammes 1 (get_live_and_upcoming_events db now) now with
  | none => rw [hc] at h; simp at h
  | some ps =>
    simp only [generate_xmltv, hc, Option.map_some', Option.some_inj]
    exact channelsFrom_length 1 (get_live_and_upcoming_events db now)

/-- Witness for the amended C2 on a store holding one NULL-timestamp row and
one degenerate row. -/
theorem missing_timestamps_excluded_witness :
    (∀ e ∈ get_live_and_upcoming_events [baseEvent, c2Bad] 0,
        e.start_utc.isSome ∧ e.stop_utc.isSome)
    ∧ (generate_xmltv (get_live_and_upcoming_events [baseEvent, c2Bad] 0) 0).map
          (fun g => g.channels.length)
        = some (get_live_and_upcoming_events [baseEvent, c2Bad] 0).length :=
  missing_timestamps_excluded_and_selected_events_compile [baseEvent, c2Bad] 0

/-- C7: the whole compile step (selection, playlist, guide) and the tiling
routine are pure functions of the store contents and the clock reading: two
runs over equal inputs produce identical outputs. -/
theorem compiler_deterministic (db1 db2 : List Event) (now1 now2 : Int)
    (cid : String) (st : Int) (hdb : db1 = db2) (hnow : now1 = now2) :
    generate_m3u (get_live_and_upcoming_events db1 now1)
        = generate_m3u (get_live_and_upcoming_events db2 now2)
    ∧ generate_xmltv (get_live_and_upcoming_events db1 now1) now1
        = generate_xmltv (get_live_and_upcoming_events db2 now2) now2
    ∧ generate_standby_blocks cid st now1 = generate_standby_blocks cid st now2 := by
  subst hdb
  subst hnow
  exact ⟨rfl, rfl, rfl⟩

/-- Witness for C7 at a concrete store and clock. -/
theorem compiler_deterministic_witness :
    ([evGood] : List Event) = [evGood] ∧ (0 : Int) = 0
    ∧ (generate_m3u (get_live_and_upcoming_events [evGood] 0)
          = generate_m3u (get_live_and_upcoming_events [evGood] 0)
      ∧ generate_xmltv (get_live_and_upcoming_events [evGood] 0) 0
          = generate_xmltv (get_live_and_upcoming_events [evGood] 0) 0
      ∧ generate_standby_blocks (chanId 1) 3600 0
          = generate_standby_blocks (chanId 1) 3600 0) :=
  ⟨rfl, rfl, compiler_deterministic [evGood] [evGood] 0 0 (chanId 1) 3600 rfl rfl⟩

/-- C8: the compiler selects exactly the rows with both timestamps present
satisfying `stop + grace > now` and `start <= now + lookahead`, returns a
permutation of that filtered table, and the result is sorted by the
`(start, title, id)` lexicographic comparison. -/
theorem selection_query_exact_and_sorted (db : List Event) (now : Int) :
    (∀ e, e ∈ get_live_and_upcoming_events db now ↔
        e ∈ db ∧ ∃ s t, e.start_utc = some s ∧ e.stop_utc = some t ∧
          now < t + GRACE_PERIOD ∧ s ≤ now + MAX_STANDBY)
    ∧ (get_live_and_upcoming_events db now).Pairwise eventRel
    ∧ (get_live_and_upcoming_events db now).Perm (db.filter (selPred now)) := by
  refine ⟨?_, ?_, List.perm_insertionSort eventRel _⟩
  · intro e
    rw [get_live_mem]
    constructor
    · rintro ⟨hdb, hp⟩
      refine ⟨hdb, ?_⟩
      cases hs : e.start_utc with
      | none => simp [selPred, hs] at hp
      | some s =>
        cases ht : e.stop_utc with
        | none => simp [selPred, hs, ht] at hp
        | some t =>
          simp only [selPred, hs, ht, Bool.and_eq_true, decide_eq_true_eq] at hp
          exact ⟨s, t, rfl, rfl, hp.1, hp.2⟩
    · rintro ⟨hdb, s, t, hs, ht, hg, hl⟩
      refine ⟨hdb, ?_⟩
      simp only [selPred, hs, ht, Bool.and_eq_true, decide_eq_true_eq]
      exact ⟨hg, hl⟩
  · haveI : IsTotal Event eventRel := ⟨eventRel_total⟩
    haveI : IsTrans Event eventRel := ⟨eventRel_trans⟩
    exact List.sorted_insertionSort eventRel (db.filter (selPred now))

/-- Witness for C8 at a concrete two-row store. -/
theorem selection_query_witness :
    (∀ e, e ∈ get_live_and_upcoming_events [evGood, c2Bad] 0 ↔
        e ∈ [evGood, c2Bad] ∧ ∃ s t, e.start_utc = some s ∧ e.stop_utc = some t ∧
          (0 : Int) < t + GRACE_PERIOD ∧ s ≤ 0 + MAX_STANDBY)
    ∧ (get_live_and_upcoming_events [evGood, c2Bad] 0).Pairwise eventRel
    ∧ (get_live_and_upcoming_events [evGood, c2Bad] 0).Perm
        ([evGood, c2Bad].filter (selPred 0)) :=
  selection_query_exact_and_sorted [evGood, c2Bad] 0

/-- C9: a missing store exits 1 writing nothing; an empty selection exits 0
writing nothing; and with the store present the run always exits 0 (the
compiler never raises on a selected window, empty or not). -/
theorem main_run_exit_behavior (db : List Event) (now : Int) :
    main_run false db now = { exit_code := 1, m3u_out := none, xml_out := none }
    ∧ (get_live_and_upcoming_events db now = [] →
        main_run true db now = { exit_code := 0, m3u_out := none, xml_out := none })
    ∧ (main_run true db now).exit_code = 0 := by
  refine ⟨rfl, ?_, ?_⟩
  · intro h
    simp [main_run, h]
  · by_cases h : get_live_and_upcoming_events db now = []
    · simp [main_run, h]
    · have hsome := compileProgrammes_isSome 1 (get_live_and_upcoming_events db now) now
        (selected_timestamps db now)
      cases hc : compileProgrammes 1 (get_live_and_upcoming_events db now) now with
      | none => rw [hc] at hsome; simp at hsome
      | some ps => simp [main_run, h, generate_xmltv, hc]

/-- Witness for C9 on the empty store contents. -/
theorem main_run_exit_witness :
    main_run false [] 0 = { exit_code := 1, m3u_out := none, xml_out := none }
    ∧ (get_live_and_upcoming_events [] 0 = [] →
        main_run true [] 0 = { exit_code := 0, m3u_out := none, xml_out := none })
    ∧ (main_run true [] 0).exit_code = 0 :=
  main_run_exit_behavior [] 0

/-- C10: the serializer declares one channel per event with ids
`espnplus1 .. espnplusN` in event order, every programme references a
declared id, and all programmes of event number `idx` reference exactly
`espnplus{idx}`. -/
theorem programmes_reference_declared_channels (evs : List Event) (now : Int)
    (g : Guide) (h : generate_xmltv evs now = some g) :
    g.channels.map Channel.id = (List.range evs.length).map (fun k => chanId (1 + k))
    ∧ (∀ p ∈ g.programmes, p.channel ∈ g.channels.map Channel.id)
    ∧ ∀ (idx : Nat) (e : Event) (ps : List Programme),
        eventProgrammes idx e now = some ps → ∀ p ∈ ps, p.channel = chanId idx := by
  cases hc : compileProgrammes 1 evs now with
  | none => simp [generate_xmltv, hc] at h
  | some ps =>
    simp only [generate_xmltv, hc, Option.some_inj] at h
    subst h
    refine ⟨channelsFrom_ids 1 evs, ?_,
      fun idx e ps' hps' => eventProgrammes_channel idx e now ps' hps'⟩
    intro p hp
    rcases compileProgrammes_channels 1 evs now ps hc p hp with ⟨k, hk, hck⟩
    rw [channelsFrom_ids 1 evs, hck]
    exact List.mem_map.mpr ⟨k, List.mem_range.mpr hk, rfl⟩

/-- Witness for C10 on the one-event guide. -/
theorem programmes_reference_declared_witness :
    generate_xmltv [evGood] 0 = some gWitness
    ∧ (gWitness.channels.map Channel.id
        = (List.range ([evGood] : List Event).length).map (fun k => chanId (1 + k))
      ∧ (∀ p ∈ gWitness.programmes, p.channel ∈ gWitness.channels.map Channel.id)
      ∧ ∀ (idx : Nat) (e : Event) (ps : List Programme),
          eventProgrammes idx e 0 = some ps → ∀ p ∈ ps, p.channel = chanId idx) :=
  ⟨rfl, programmes_reference_declared_channels [evGood] 0 gWitness rfl⟩
